import Mathlib

/-!
Verification of the conduit-connector-generator record synthesis engine.

This file gives a shallow embedding of the generation scheduler and record
synthesis core of the connector:

* `internal/generator.go` — `baseRecordGenerator.Next`, `randomStructuredData`,
  `NewFileRecordGenerator`, `KnownTypes`;
* the collection combinator — `Combine` / `combinedRecordGenerator.Next`;
* `config.go` — `Config.RateLimit`;
* `source.go` — `Source.Read` (record-count ceiling and sleep orchestration);
* the burst scheduler and pull orchestrator of the final configuration, which
  are modelled from the specification where noted.

Machine integers are modelled as `Nat`/`Int` (Go `time.Duration` and
`time.Time` are `int64` nanoseconds, modelled as `Int`); Go `float64` rates
are modelled as `ℚ`; fallible/panicking code returns `Except`.  Randomness
(`math/rand`) is modelled as an explicit entropy source: an indexed stream of
naturals, with `rand.Intn(n)` embedded as reduction modulo `n`.
-/

namespace ConduitGen

/-- An opencdc operation tag (`opencdc.Operation`). -/
inductive Operation where
  | create
  | update
  | delete
  | snapshot
deriving DecidableEq, Repr

/-- A single synthesized field value (the dynamic values stored in
`opencdc.StructuredData`): Go `int`, `string`, `time.Time` (int64 ns),
`time.Duration` (int64 ns) and `bool`. -/
inductive FieldValue where
  | intV (n : Nat)
  | stringV (s : List Nat)
  | timeV (t : Int)
  | durationV (ns : Int)
  | boolV (b : Bool)
deriving DecidableEq, Repr

/-- `opencdc.StructuredData`: a field-name/value mapping.  Go iterates the map
in unspecified order; we model the mapping as an association list. -/
abbrev StructuredData := List (String × FieldValue)

/-- `opencdc.Data`: either raw bytes or structured data.  A `nil` interface
value is modelled as `Option Data` at the use sites (payload before/after). -/
inductive Data where
  | raw (bytes : List Nat)
  | structured (d : StructuredData)
deriving DecidableEq, Repr

/-- The record metadata fields touched by the core: creation timestamp,
optional collection name, and the optional payload-schema descriptor attached
by the post-processing hook. -/
structure Metadata where
  createdAt : Int
  collection : Option String
  payloadSchema : Option (String × Nat)
deriving DecidableEq, Repr

/-- `opencdc.Record` as produced by the generator (`Payload.Before/After` are
interface values that may be `nil`, hence `Option Data`). -/
structure Record where
  position : List Nat
  operation : Operation
  metadata : Metadata
  key : Data
  before : Option Data
  after : Option Data
deriving DecidableEq, Repr

/-! ### Decimal encoding (`strconv.Itoa`)

`strconv.Itoa` produces the decimal digits of a non-negative counter as ASCII
bytes.  We embed it with an explicit fuel argument (`fuel = n + 1` always
suffices) so the definition is structurally recursive and executable. -/

/-- Decimal ASCII digits of `n`, most significant first, computed with `fuel`
recursion steps. -/
def itoaGo (fuel n : Nat) : List Nat :=
  match fuel with
  | 0 => []
  | fuel + 1 => if n < 10 then [48 + n] else itoaGo fuel (n / 10) ++ [48 + n % 10]

/-- Embedding of `strconv.Itoa` on non-negative values: the ASCII bytes of the
decimal representation of `n`. -/
def itoa (n : Nat) : List Nat := itoaGo (n + 1) n

/-- Decimal decoding, used only to invert `itoa` in proofs. -/
def atoiFrom (a : Nat) (l : List Nat) : Nat :=
  l.foldl (fun acc d => acc * 10 + (d - 48)) a

/-! ### Field value synthesis (`internal/generator.go`) -/

/-- An entropy source: an indexed stream of `math/rand` draws; `rand.Intn n`
is embedded as `σ i % n` and `rand.Int` as `σ i`. -/
abbrev Rng := Nat → Nat

/-- `internal.KnownTypes` (generator.go:33). -/
def KnownTypes : List String := ["int", "string", "time", "bool", "duration"]

/-- Modelled from the spec: `randomWord` (§4.1 "a short random human-readable
token (no uniqueness guarantee)"; its defining file is not among the sources)
— a word selected from a fixed non-empty list by a random draw. -/
def wordList : List (List Nat) := [[97], [98, 98], [99, 99, 99]]

/-- Modelled from the spec: the random token picker backing `randomWord`. -/
def randomWord (draw : Nat) : List Nat := wordList.getD (draw % wordList.length) []

/-- One second in nanoseconds (`time.Second`; Go durations are `int64`
nanosecond counts). -/
def nsPerSecond : Int := 1000000000

/-- The body of `randomStructuredData`'s `switch typ` (generator.go:170-183):
the synthesized value for one field, or the `panic` (as `Except.error`) on an
unrecognized type tag.  Draw `i` of `rng` models the `math/rand` call made for
this field and `now` models `time.Now()`. -/
def synthesizeField (rng : Rng) (now : Int) (i : Nat) (field typ : String) :
    Except String FieldValue :=
  if typ = "int" then .ok (.intV (rng i))
  else if typ = "string" then .ok (.stringV (randomWord (rng i)))
  else if typ = "time" then .ok (.timeV now)
  else if typ = "duration" then .ok (.durationV (((rng i % 1000 : Nat) : Int) * nsPerSecond))
  else if typ = "bool" then .ok (.boolV (rng i % 2 = 0))
  else .error ("field " ++ field ++ " contains invalid type: " ++ typ)

/-- Embedding of `internal.randomStructuredData` (generator.go:167-186).
The Go code iterates the field map (modelled as an association list), drawing
one random value per field; a `panic` anywhere aborts the whole call. -/
def randomStructuredDataGo (rng : Rng) (now : Int) (i : Nat) :
    List (String × String) → Except String StructuredData
  | [] => .ok []
  | (field, typ) :: rest =>
    match synthesizeField rng now i field typ with
    | .error s => .error s
    | .ok v =>
      match randomStructuredDataGo rng now (i + 1) rest with
      | .error s => .error s
      | .ok rest' => .ok ((field, v) :: rest')

/-- `internal.randomStructuredData`, starting at the first draw. -/
def randomStructuredData (rng : Rng) (now : Int)
    (fields : List (String × String)) : Except String StructuredData :=
  randomStructuredDataGo rng now 0 fields

/-! ### The collection record generator (`internal/generator.go`) -/

/-- Per-call entropy for `baseRecordGenerator.Next`: the operation-selection
draw (`rand.Intn(len(g.operations))`), the key draw (`randomWord()`), the
clock reading (`time.Now()`), and the `math/rand` streams consumed by the
first and second `generateData()` calls of this pull. -/
structure Entropy where
  opDraw : Nat
  keyDraw : Nat
  now : Int
  rngA : Rng
  rngB : Rng

/-- `internal.baseRecordGenerator` (generator.go:41-48): `generateData` is the
stored data closure, explicitly passed the entropy it consumes, and
`postProcess` is the optional post-processing hook. -/
structure BaseRecordGenerator where
  collection : String
  operations : List Operation
  generateData : Rng → Int → Except String Data
  postProcess : Option (Record → Record)
  count : Nat

/-- The record built by `Next` before the payload switch (generator.go:53-64):
position stamped with the incremented counter, metadata with the creation
time and optional collection, a random key, and an empty payload. -/
def preRecord (g : BaseRecordGenerator) (e : Entropy) (count : Nat)
    (op : Operation) : Record :=
  { position := itoa count
    operation := op
    metadata :=
      { createdAt := e.now
        collection := if g.collection = "" then none else some g.collection
        payloadSchema := none }
    key := .raw (randomWord e.keyDraw)
    before := none
    after := none }

/-- The payload switch of `Next` (generator.go:66-74): populate `after` for
snapshot/create, both for update (two separate `generateData()` calls), and
`before` for delete. -/
def payloadFor (g : BaseRecordGenerator) (e : Entropy) (r0 : Record) :
    Operation → Except String Record
  | .snapshot =>
      match g.generateData e.rngA e.now with
      | .error s => .error s
      | .ok d => .ok { r0 with after := some d }
  | .create =>
      match g.generateData e.rngA e.now with
      | .error s => .error s
      | .ok d => .ok { r0 with after := some d }
  | .update =>
      match g.generateData e.rngA e.now with
      | .error s => .error s
      | .ok b =>
          match g.generateData e.rngB e.now with
          | .error s => .error s
          | .ok a => .ok { r0 with before := some b, after := some a }
  | .delete =>
      match g.generateData e.rngA e.now with
      | .error s => .error s
      | .ok d => .ok { r0 with before := some d }

/-- Embedding of `baseRecordGenerator.Next` (generator.go:50-81): increment
the counter, select an operation at random, build the record, populate the
payload according to the operation, then apply the post-processing hook. -/
def baseNext (g : BaseRecordGenerator) (e : Entropy) :
    Except String (Record × BaseRecordGenerator) :=
  let count := g.count + 1
  -- `g.operations[rand.Intn(len(g.operations))]`: the draw is in range exactly
  -- when the list is non-empty; `rand.Intn(0)` panics.
  match g.operations.get? (e.opDraw % g.operations.length) with
  | none => .error ("panic: rand.Intn with non-positive argument")
  | some op =>
    match payloadFor g e (preRecord g e count op) op with
    | .error s => .error s
    | .ok r1 =>
        .ok (match g.postProcess with | none => r1 | some pp => pp r1,
          { g with count := count })

/-- Embedding of `schema.AttachPayloadSchemaToRecord` (external collaborator
invoked by the post-processing hook of `NewStructuredRecordGenerator`): it
attaches the schema subject/version to the record metadata and leaves every
other field, in particular the payload, unchanged. -/
def attachPayloadSchemaToRecord (subject : String) (version : Nat)
    (r : Record) : Record :=
  { r with metadata := { r.metadata with payloadSchema := some (subject, version) } }

/-! ### The file-backed generator (`internal/generator.go:87-105`) -/

/-- A filesystem: file contents by path, plus a counter of performed reads. -/
structure FS where
  content : String → Except String (List Nat)
  reads : Nat

/-- `os.ReadFile`: returns the file's content (or an error) and bumps the
read counter. -/
def FS.readFile (fs : FS) (path : String) : Except String (List Nat) × FS :=
  (fs.content path, { fs with reads := fs.reads + 1 })

/-- Embedding of `internal.NewFileRecordGenerator` (generator.go:87-105): the
file is read once at construction; a read failure fails the construction;
otherwise the cached bytes are captured by the stored `generateData` closure,
whose type has no access to the filesystem. -/
def NewFileRecordGenerator (collection : String) (operations : List Operation)
    (path : String) (fs : FS) : Except String BaseRecordGenerator × FS :=
  let res := fs.readFile path
  match res.1 with
  | .error e => (.error ("failed to read file: " ++ e), res.2)
  | .ok bytes =>
      (.ok { collection := collection
             operations := operations
             generateData := fun _ _ => .ok (.raw bytes)
             postProcess := none
             count := 0 }, res.2)

/-! ### The collection combinator (`part_009`) -/

/-- Per-call entropy for the combined generator: the generator-selection draw
plus the entropy handed to the selected generator. -/
structure CEntropy where
  pick : Nat
  inner : Entropy

/-- The value returned by `Combine` (part_009:26-33): with exactly one
generator, that generator itself; otherwise a `combinedRecordGenerator`
wrapping the list. -/
inductive CombinedGen where
  | single (g : BaseRecordGenerator)
  | multi (gens : List BaseRecordGenerator)

/-- Embedding of `Combine` (part_009:26-33). -/
def Combine (generators : List BaseRecordGenerator) : CombinedGen :=
  match generators with
  | [g] => .single g
  | gens => .multi gens

/-- Embedding of `combinedRecordGenerator.Next` (part_009:39-52): select a
generator at random, pull from it, and prepend the decimal generator index to
the record's position. -/
def combinedNext (gens : List BaseRecordGenerator) (e : CEntropy) :
    Except String (Record × List BaseRecordGenerator) :=
  let i := e.pick % gens.length
  -- `g.generators[rand.Intn(len(g.generators))]`: in range exactly when the
  -- list is non-empty; `rand.Intn(0)` panics.
  match gens.get? i with
  | none => .error ("panic: rand.Intn with non-positive argument")
  | some gen =>
    match baseNext gen e.inner with
    | .error s => .error s
    | .ok (r, gen') =>
        .ok ({ r with position := itoa i ++ r.position }, gens.set i gen')

/-- `Next` on the result of `Combine`: a single generator is the generator
itself (its `Next` is called directly); a combined generator dispatches
through `combinedNext`. -/
def CombinedGen.next : CombinedGen → CEntropy → Except String (Record × CombinedGen)
  | .single g, e =>
      match baseNext g e.inner with
      | .error s => .error s
      | .ok (r, g') => .ok (r, .single g')
  | .multi gens, e =>
      match combinedNext gens e with
      | .error s => .error s
      | .ok (r, gens') => .ok (r, .multi gens')

/-- Run a base generator over a list of per-call entropies, collecting the
produced records (a panic aborts the run). -/
def runBase (g : BaseRecordGenerator) : List Entropy → List Record
  | [] => []
  | e :: es =>
      match baseNext g e with
      | .error _ => []
      | .ok (r, g') => r :: runBase g' es

/-- Run a combined generator over a list of per-call entropies. -/
def runCombined (g : CombinedGen) : List CEntropy → List Record
  | [] => []
  | e :: es =>
      match g.next e with
      | .error _ => []
      | .ok (r, g') => r :: runCombined g' es

/-- The composite position produced by `combinedRecordGenerator.Next` when
generator `i` is selected on that generator's `j`-th call: the decimal
generator index prepended to the generator's own decimal call counter
(part_009:44-49 together with generator.go:60). -/
def compositePos (i j : Nat) : List Nat := itoa i ++ itoa j

/-! ### `Source.Read` (source.go:86-117) -/

/-- The configuration fields consumed by `Source.Read` (source.go): the
record ceiling (`-1` = no limit) and the read/sleep/generate durations in
nanoseconds. -/
structure SourceConfig where
  recordCount : Int
  readTime : Int
  sleepTime : Int
  generateTime : Int
deriving DecidableEq, Repr

/-- The mutable `Source` state touched by `Read`: the produced-record counter
and the end of the current generating window. -/
structure SourceState where
  created : Int
  generateUntil : Int
deriving DecidableEq, Repr

/-- The ambient context and collaborators of one `Read` call, abstracted:
whether `ctx.Err()` is already non-nil at entry, whether the context becomes
done during the burst sleep or during the read sleep, the clock readings
before and after the burst sleep, and the outcome of
`recordGenerator.generate()` (an injected collaborator, polymorphic in its
record type). -/
structure ReadCtx (ρ : Type) where
  errAtEntry : Bool
  cancelDuringBurstSleep : Bool
  cancelDuringReadSleep : Bool
  now : Int
  nowAfterBurstSleep : Int
  genResult : Except String ρ

/-- The possible results of one `Read` call (source.go:86-117). -/
inductive ReadResult (ρ : Type) where
  | ctxErrAtEntry
  | blockedUntilDone
  | sleepCancelled
  | generateFailed (msg : String)
  | produced (r : ρ)

/-- Embedding of `Source.sleep` (source.go:126-145): whether blocking for a
positive duration or merely polling, the call errors exactly when the context
is done by the time it completes. -/
def sourceSleep (duration : Int) (ctxDone : Bool) : Except String Unit :=
  if 0 < duration then
    if ctxDone then .error ("context canceled") else .ok ()
  else
    if ctxDone then .error ("context canceled") else .ok ()

/-- Embedding of `Source.shouldSleep` (source.go:119-124). -/
def shouldSleep (cfg : SourceConfig) (st : SourceState) (now : Int) : Bool :=
  if cfg.sleepTime = 0 then false
  else decide (st.generateUntil < now)

/-- The tail of `Source.Read` after the burst sleep (source.go:107-116): the
read-time sleep followed by record generation. -/
def sourceReadRest {ρ : Type} (cfg : SourceConfig) (st : SourceState)
    (ctx : ReadCtx ρ) : ReadResult ρ × SourceState :=
  match sourceSleep cfg.readTime ctx.cancelDuringReadSleep with
  | .error _ => (.sleepCancelled, st)
  | .ok _ =>
      match ctx.genResult with
      | .error e => (.generateFailed e, st)
      | .ok r => (.produced r, st)

/-- Embedding of `Source.Read` (source.go:86-117): report a context error at
entry; block until the context is done once the non-negative record ceiling
has been reached; otherwise increment `created`, perform the burst sleep when
due (re-arming `generateUntil`), perform the read sleep, and generate the
record. -/
def sourceRead {ρ : Type} (cfg : SourceConfig) (st : SourceState)
    (ctx : ReadCtx ρ) : ReadResult ρ × SourceState :=
  if ctx.errAtEntry then (.ctxErrAtEntry, st)
  else if cfg.recordCount ≤ st.created ∧ 0 ≤ cfg.recordCount then
    (.blockedUntilDone, st)
  else
    let st1 : SourceState := { st with created := st.created + 1 }
    if shouldSleep cfg st1 ctx.now then
      match sourceSleep cfg.sleepTime ctx.cancelDuringBurstSleep with
      | .error _ => (.sleepCancelled, st1)
      | .ok _ =>
          sourceReadRest cfg
            { st1 with generateUntil := ctx.nowAfterBurstSleep + cfg.generateTime }
            ctx
    else sourceReadRest cfg st1 ctx

/-! ### `Config.RateLimit` (config.go:120-126) -/

/-- The rate-limit inputs of `Config` (config.go:36-51): the explicit maximum
rate (`float64`, modelled exactly as `ℚ`) and the deprecated fixed per-record
delay `readTime` (`time.Duration`, `int64` nanoseconds). -/
structure RateConfig where
  rate : ℚ
  readTime : Int
deriving DecidableEq, Repr

/-- Embedding of `rate.Every` (external collaborator `golang.org/x/time/rate`)
on positive intervals: the rate whose interval between events is `interval`
nanoseconds, i.e. `10^9 / interval` events per second.  (`Config.RateLimit`
guards its only call with `readTime > 0`; on non-positive intervals the
library returns the infinite rate, which the core never requests.) -/
def rateEvery (interval : Int) : ℚ :=
  if 0 < interval then (nsPerSecond : ℚ) / (interval : ℚ) else 0

/-- Embedding of `Config.RateLimit` (config.go:120-126). -/
def RateLimit (c : RateConfig) : ℚ :=
  if c.rate = 0 ∧ 0 < c.readTime then rateEvery c.readTime else c.rate

/-! ### The burst scheduler of the final configuration

The final configuration's burst scheduler (spec §4.5) is not among the source
files (only the earlier sleep-based `Source.Read` versions are), so it is
modelled from the specification. -/

/-- Modelled from the spec: the burst scheduler's catch-up loop (§4.5,
"advance `windowEnd` forward in increments of `(S + G)` until
`windowEnd > now`"); the final configuration's burst code is not among the
sources.  `hSG` is the §3 invariant (`S > 0` requires `G > 0`) packaged as
positivity of the increment, needed for termination. -/
def catchUp (SG now windowEnd : Int) (hSG : 0 < SG) : Int :=
  if now < windowEnd then windowEnd
  else catchUp SG now (windowEnd + SG) hSG
termination_by (now + 1 - windowEnd).toNat
decreasing_by omega

/-- Modelled from the spec: one burst-scheduler wait decision (§4.5); the
final configuration's burst code is not among the sources.  Returns the
updated `windowEnd` and the length of the sleep the caller must perform
(`0` when no sleep is needed): inside the current generating window nothing
changes and there is no sleep; otherwise the window is caught up to the
present and the caller sleeps until `wakeAt = windowEnd - G` unless that
instant is already past. -/
def burstWait (S G now windowEnd : Int) (hSG : 0 < S + G) : Int × Int :=
  if now < windowEnd then (windowEnd, 0)
  else
    let we := catchUp (S + G) now windowEnd hSG
    let wakeAt := we - G
    (we, if now < wakeAt then wakeAt - now else 0)

/-! ### The pull orchestrator of the final configuration

The final configuration's `Source.Read` (spec §4.7: ceiling check, synthesis
before waiting, burst wait, rate-limit wait, count increment) is not among
the source files, so it is modelled from the specification. -/

/-- The steps of one pull, in the order the orchestrator performs them. -/
inductive PullStep where
  | checkCeiling
  | synthesizeRecord
  | burstSchedulerWait
  | rateLimiterWait
  | incrementCount
deriving DecidableEq, Repr

/-- Modelled from the spec: the per-pull collaborator outcomes seen by the
pull orchestrator (§4.7; the final configuration's `Source.Read` is not among
the sources): whether cancellation is already signalled at entry, whether the
burst or rate-limit wait is interrupted by cancellation, and the entropy fed
to record synthesis. -/
structure PullCtx where
  cancelledAtEntry : Bool
  cancelDuringBurstWait : Bool
  cancelDuringRateWait : Bool
  entropy : CEntropy

/-- Modelled from the spec: the pull orchestrator's state (§4.7): the
produced-count, the configured record ceiling (`0` = no ceiling), and the
collection combinator it synthesizes from. -/
structure PullState where
  produced : Nat
  recordCount : Nat
  generator : CombinedGen

/-- The possible outcomes of one pull (§4.7). -/
inductive PullOutcome where
  | cancelled
  | blockedUntilCancelled
  | cancelledDuringWait
  | panicked (msg : String)
  | produced (r : Record)

/-- Modelled from the spec: the pull orchestrator (§4.7; the final
configuration's `Source.Read` is not among the sources): report cancellation
immediately if already signalled; block until cancellation once the non-zero
record ceiling is reached; otherwise synthesize the next record via the
collection combinator *before* any waiting, apply the burst scheduler's wait,
then the rate limiter's wait, then increment the produced-count and return
the record.  The returned trace lists the steps performed, in order. -/
def pull (st : PullState) (ctx : PullCtx) :
    List PullStep × PullOutcome × PullState :=
  if ctx.cancelledAtEntry then ([], .cancelled, st)
  else if 0 < st.recordCount ∧ st.recordCount ≤ st.produced then
    ([.checkCeiling], .blockedUntilCancelled, st)
  else
    match st.generator.next ctx.entropy with
    | .error e => ([.checkCeiling, .synthesizeRecord], .panicked e, st)
    | .ok (r, gen') =>
        if ctx.cancelDuringBurstWait then
          ([.checkCeiling, .synthesizeRecord, .burstSchedulerWait],
            .cancelledDuringWait, { st with generator := gen' })
        else if ctx.cancelDuringRateWait then
          ([.checkCeiling, .synthesizeRecord, .burstSchedulerWait,
              .rateLimiterWait],
            .cancelledDuringWait, { st with generator := gen' })
        else
          ([.checkCeiling, .synthesizeRecord, .burstSchedulerWait,
              .rateLimiterWait, .incrementCount],
            .produced r,
            { st with generator := gen', produced := st.produced + 1 })

/-! ### Claim formalizations and concrete instances -/

/-- The uniqueness property claimed for the combinator: with `M` generators
each pulled `K` times (so generator `i < M` emits its own positions
`1, …, K`), the composite positions determine the generator index and the
call number, i.e. all `M·K` of them are pairwise distinct. -/
def combinatorPositionsDistinct (M K : Nat) : Prop :=
  ∀ i j i' j', i < M → i' < M → 1 ≤ j → j ≤ K → 1 ≤ j' → j' ≤ K →
    compositePos i j = compositePos i' j' → i = i' ∧ j = j'

/-- A concrete one-operation generator with a constant payload. -/
def wGen : BaseRecordGenerator :=
  { collection := ""
    operations := [.create]
    generateData := fun _ _ => .ok (.raw [1])
    postProcess := none
    count := 0 }

/-- A concrete entropy assignment. -/
def wEntropy : Entropy :=
  { opDraw := 0, keyDraw := 0, now := 0, rngA := fun _ => 0, rngB := fun _ => 0 }

/-- The record `wGen` produces on its first call under `wEntropy`. -/
def wRecord : Record :=
  { position := [49]
    operation := .create
    metadata := { createdAt := 0, collection := none, payloadSchema := none }
    key := .raw [97]
    before := none
    after := some (.raw [1]) }

/-- A concrete `Read` configuration with a ceiling of 2 records. -/
def wReadCfg : SourceConfig :=
  { recordCount := 2, readTime := 0, sleepTime := 0, generateTime := 0 }

/-- A concrete `Source` state that has already produced 2 records. -/
def wReadState : SourceState := { created := 2, generateUntil := 0 }

/-- A concrete uncancelled `Read` context. -/
def wReadCtx : ReadCtx Nat :=
  { errAtEntry := false
    cancelDuringBurstSleep := false
    cancelDuringReadSleep := false
    now := 0
    nowAfterBurstSleep := 0
    genResult := .ok 7 }

/-- A concrete pull-orchestrator state over `wGen`. -/
def wPullState : PullState :=
  { produced := 0, recordCount := 0, generator := .single wGen }

/-- A concrete uncancelled pull context. -/
def wPullCtx : PullCtx :=
  { cancelledAtEntry := false
    cancelDuringBurstWait := false
    cancelDuringRateWait := false
    entropy := { pick := 0, inner := wEntropy } }

/-- The pull-orchestrator state after one successful pull from `wPullState`. -/
def wPullStateAfter : PullState :=
  { produced := 1, recordCount := 0, generator := .single { wGen with count := 1 } }

/-- A concrete filesystem with one readable file. -/
def wFS : FS :=
  { content := fun p => if p = "payload.txt" then .ok [10, 20] else .error ("no such file")
    reads := 0 }

/-- A concrete rate configuration using the deprecated 2-second delay. -/
def wRateCfg : RateConfig := { rate := 0, readTime := 2000000000 }

/-- A field spec whose tags are all recognized. -/
def wFieldsGood : List (String × String) := [("id", "int"), ("d", "duration")]

/-- A field spec containing an unrecognized tag. -/
def wFieldsBad : List (String × String) := [("id", "float")]

/-! ## Theorems

### Properties of the decimal encoding -/

theorem atoiFrom_itoaGo (fuel n a : Nat) (h : n < fuel) :
    atoiFrom a (itoaGo fuel n) = a * 10 ^ (itoaGo fuel n).length + n := by
  induction fuel generalizing n a with
  | zero => omega
  | succ fuel ih =>
    simp only [itoaGo]
    split
    · rename_i hn
      simp only [atoiFrom, List.foldl_cons, List.foldl_nil, List.length_cons,
        List.length_nil, Nat.zero_add, pow_one]
      omega
    · rename_i hn
      have hd : n / 10 < n := Nat.div_lt_self (by omega) (by omega)
      have hrec := ih (n / 10) a (by omega)
      simp only [atoiFrom, List.foldl_append, List.foldl_cons, List.foldl_nil,
        List.length_append, List.length_cons, List.length_nil, Nat.zero_add] at hrec ⊢
      rw [hrec]
      have h48 : 48 + n % 10 - 48 = n % 10 := by omega
      rw [h48, pow_succ]
      have hdm : n / 10 * 10 + n % 10 = n := by omega
      calc (a * 10 ^ (itoaGo fuel (n / 10)).length + n / 10) * 10 + n % 10
          = a * (10 ^ (itoaGo fuel (n / 10)).length * 10) + (n / 10 * 10 + n % 10) := by
            ring
        _ = a * (10 ^ (itoaGo fuel (n / 10)).length * 10) + n := by rw [hdm]

theorem atoi_itoa (n : Nat) : atoiFrom 0 (itoa n) = n := by
  have := atoiFrom_itoaGo (n + 1) n 0 (by omega)
  simpa [itoa] using this

theorem itoa_injective : Function.Injective itoa := by
  intro a b h
  have ha := atoi_itoa a
  have hb := atoi_itoa b
  rw [h] at ha
  omega

/-- For a single-digit value the decimal encoding is the one ASCII byte
`48 + n`. -/
theorem itoa_single_digit (n : Nat) (h : n < 10) : itoa n = [48 + n] := by
  simp [itoa, itoaGo, h]

/-! ### Characterization of `baseRecordGenerator.Next` -/

/-- On success, the payload switch only fills the payload: every other record
field is preserved, and the population matches the operation. -/
theorem payloadFor_ok (g : BaseRecordGenerator) (e : Entropy) (r0 : Record)
    (op : Operation) (r1 : Record) (h : payloadFor g e r0 op = .ok r1) :
    r1.position = r0.position ∧ r1.operation = r0.operation ∧
    r1.metadata = r0.metadata ∧ r1.key = r0.key ∧
    ((op = .create ∨ op = .snapshot) → r1.after.isSome ∧ r1.before = r0.before) ∧
    (op = .delete → r1.before.isSome ∧ r1.after = r0.after) ∧
    (op = .update → r1.before.isSome ∧ r1.after.isSome) := by
  cases op with
  | create =>
    simp only [payloadFor] at h
    split at h
    · exact absurd h (by simp)
    · injection h with h
      subst h
      refine ⟨rfl, rfl, rfl, rfl, ?_, ?_, ?_⟩ <;> simp
  | snapshot =>
    simp only [payloadFor] at h
    split at h
    · exact absurd h (by simp)
    · injection h with h
      subst h
      refine ⟨rfl, rfl, rfl, rfl, ?_, ?_, ?_⟩ <;> simp
  | delete =>
    simp only [payloadFor] at h
    split at h
    · exact absurd h (by simp)
    · injection h with h
      subst h
      refine ⟨rfl, rfl, rfl, rfl, ?_, ?_, ?_⟩ <;> simp
  | update =>
    simp only [payloadFor] at h
    split at h
    · exact absurd h (by simp)
    · split at h
      · exact absurd h (by simp)
      · injection h with h
        subst h
        refine ⟨rfl, rfl, rfl, rfl, ?_, ?_, ?_⟩ <;> simp

/-- On success, `baseNext` leaves every generator field but the counter
unchanged (incrementing the counter), and the returned record is the
post-processing hook applied to a record `r1` that is stamped with the
decimal incremented counter, whose operation is drawn from the operation
list, and whose payload population is determined by that operation. -/
theorem baseNext_ok (g : BaseRecordGenerator) (e : Entropy) (r : Record)
    (g' : BaseRecordGenerator) (h : baseNext g e = .ok (r, g')) :
    g' = { g with count := g.count + 1 } ∧
    ∃ r1 : Record,
      r = (match g.postProcess with | none => r1 | some pp => pp r1) ∧
      r1.position = itoa (g.count + 1) ∧
      g.operations.get? (e.opDraw % g.operations.length) = some r1.operation ∧
      ((r1.operation = .create ∨ r1.operation = .snapshot) →
        r1.after.isSome ∧ r1.before = none) ∧
      (r1.operation = .delete → r1.before.isSome ∧ r1.after = none) ∧
      (r1.operation = .update → r1.before.isSome ∧ r1.after.isSome) := by
  simp only [baseNext] at h
  split at h
  · exact absurd h (by simp)
  · rename_i op hsel
    split at h
    · exact absurd h (by simp)
    · rename_i r1 heq
      injection h with h
      injection h with hr hg'
      have hp := payloadFor_ok g e _ op r1 heq
      have hop : r1.operation = op := by
        rw [hp.2.1]
        simp [preRecord]
      obtain ⟨hpos, -, -, -, hca, hdel, hupd⟩ := hp
      refine ⟨hg'.symm, r1, hr.symm, ?_, ?_, ?_, ?_, ?_⟩
      · rw [hpos]
        simp [preRecord]
      · rw [hop]
        exact hsel
      · intro hcs
        rw [hop] at hcs
        simpa [preRecord] using hca hcs
      · intro hd
        rw [hop] at hd
        simpa [preRecord] using hdel hd
      · intro hu
        rw [hop] at hu
        exact hupd hu

/-! ### C1 — payload population by operation -/

/-- **C1**: for every record returned by a collection record generator's
`Next`, the payload population is determined by the record's operation: for
`create`/`snapshot` only `after` is populated (`before` is empty), for
`delete` only `before` is populated (`after` is empty), and for `update` both
are populated.  The hypothesis on the post-processing hook restricts it to
the hooks the repository installs: none, or the metadata-only schema
attachment. -/
theorem baseNext_payload_population (g : BaseRecordGenerator) (e : Entropy)
    (r : Record) (g' : BaseRecordGenerator)
    (hpp : g.postProcess = none ∨
      ∃ subj ver, g.postProcess = some (attachPayloadSchemaToRecord subj ver))
    (hnext : baseNext g e = .ok (r, g')) :
    ((r.operation = .create ∨ r.operation = .snapshot) →
      r.after.isSome ∧ r.before = none) ∧
    (r.operation = .delete → r.before.isSome ∧ r.after = none) ∧
    (r.operation = .update → r.before.isSome ∧ r.after.isSome) := by
  obtain ⟨-, r1, hr, -, -, hca, hdel, hupd⟩ := baseNext_ok g e r g' hnext
  have hfields : r.operation = r1.operation ∧ r.before = r1.before ∧
      r.after = r1.after := by
    rcases hpp with hpp | ⟨subj, ver, hpp⟩ <;> rw [hpp] at hr <;> subst hr
    · exact ⟨rfl, rfl, rfl⟩
    · simp [attachPayloadSchemaToRecord]
  obtain ⟨ho, hb, ha⟩ := hfields
  rw [ho, hb, ha]
  exact ⟨hca, hdel, hupd⟩

/-- **C1 witness**: the payload-population invariant instantiated on the
concrete generator `wGen` and entropy `wEntropy`. -/
theorem baseNext_payload_population_witness :
    ((wRecord.operation = .create ∨ wRecord.operation = .snapshot) →
      wRecord.after.isSome ∧ wRecord.before = none) ∧
    (wRecord.operation = .delete → wRecord.before.isSome ∧ wRecord.after = none) ∧
    (wRecord.operation = .update → wRecord.before.isSome ∧ wRecord.after.isSome) :=
  baseNext_payload_population wGen wEntropy wRecord { wGen with count := 1 }
    (Or.inl rfl) (by rfl)

/-! ### C3 — combinator position uniqueness -/

/-- `combinedNext` really produces composite positions: on success the
selected generator is `gens[pick % M]` and, when the generators carry no
post-processing hook, the record's position is `compositePos i (count + 1)`
for the selected index `i` and that generator's own pre-increment counter. -/
theorem combinedNext_position (gens : List BaseRecordGenerator) (e : CEntropy)
    (r : Record) (gens' : List BaseRecordGenerator)
    (h : combinedNext gens e = .ok (r, gens'))
    (hpp : ∀ gen ∈ gens, gen.postProcess = none) :
    ∃ gen, gens.get? (e.pick % gens.length) = some gen ∧
      r.position = compositePos (e.pick % gens.length) (gen.count + 1) := by
  simp only [combinedNext] at h
  split at h
  · exact absurd h (by simp)
  · rename_i gen hsel
    split at h
    · exact absurd h (by simp)
    · rename_i rb gen' hb
      injection h with h
      injection h with hr hgens'
      obtain ⟨-, r1, hr1, hpos, -, -, -, -⟩ := baseNext_ok gen e.inner rb gen' hb
      have hppg : gen.postProcess = none := hpp gen (List.get?_mem hsel)
      rw [hppg] at hr1
      refine ⟨gen, hsel, ?_⟩
      rw [← hr]
      simp only []
      rw [hr1, hpos]
      rfl

/-- **C3 (counterexample)**: the claim fails as stated.  With `M = 13`
generators pulled `K = 23` times each, generator 1 at its 23rd call and
generator 12 at its 3rd call both produce the composite position `"123"`
(bytes `[49, 50, 51]`), so the `M·K` positions are not pairwise distinct. -/
theorem composite_positions_collide : ¬ combinatorPositionsDistinct 13 23 := by
  intro h
  have h1 : compositePos 1 23 = compositePos 12 3 := by decide
  have h2 := h 1 23 12 3 (by decide) (by decide) (by decide) (by decide)
    (by decide) (by decide) h1
  exact absurd h2.1 (by decide)

/-- **C3 (amended)**: pairwise distinctness of the combinator's composite
positions holds, for any number of pulls `K`, whenever the combinator has at
most ten generators: every generator index is then a single decimal digit, so
the index prefix is prefix-free and the composite position determines the
pair (index, call number). -/
theorem composite_positions_distinct_of_le_ten (M K : Nat) (_hM : 1 < M)
    (hM10 : M ≤ 10) : combinatorPositionsDistinct M K := by
  intro i j i' j' hi hi' hj hjK hj' hj'K heq
  have hi10 : i < 10 := lt_of_lt_of_le hi hM10
  have hi'10 : i' < 10 := lt_of_lt_of_le hi' hM10
  rw [compositePos, compositePos, itoa_single_digit i hi10,
    itoa_single_digit i' hi'10] at heq
  simp only [List.singleton_append, List.cons.injEq] at heq
  obtain ⟨h1, h2⟩ := heq
  exact ⟨by omega, itoa_injective h2⟩

/-- **C3 (amended) witness**: instantiated at `M = 10`, `K = 100`. -/
theorem composite_positions_distinct_witness :
    combinatorPositionsDistinct 10 100 :=
  composite_positions_distinct_of_le_ten 10 100 (by decide) (by decide)

/-! ### C2 — record-count ceiling behavior -/

/-- On success `sourceReadRest` returns the state it was given. -/
theorem sourceReadRest_produced {ρ : Type} (cfg : SourceConfig)
    (st stOut : SourceState) (ctx : ReadCtx ρ) (r : ρ)
    (h : sourceReadRest cfg st ctx = (.produced r, stOut)) : stOut = st := by
  simp only [sourceReadRest] at h
  split at h
  · exact absurd h (by simp)
  · split at h
    · exact absurd h (by simp)
    · injection h with h1 h2
      exact h2.symm

/-- **C2**: every successful `Read` increments the produced-record counter by
exactly one (so after `N` successful pulls from a fresh source,
`created = N`); and once `created` has reached a configured ceiling `N > 0`,
a further `Read` call whose context is not yet cancelled blocks until the
context is done and then reports the cancellation — it never returns a
synthesized record. -/
theorem read_blocks_after_ceiling {ρ : Type} (cfg : SourceConfig)
    (st : SourceState) (ctx : ReadCtx ρ) (hN : 0 < cfg.recordCount)
    (hcreated : cfg.recordCount ≤ st.created) (hctx : ctx.errAtEntry = false) :
    (sourceRead cfg st ctx).1 = .blockedUntilDone ∧
    (∀ r : ρ, (sourceRead cfg st ctx).1 ≠ .produced r) ∧
    (∀ (st' : SourceState) (ctx' : ReadCtx ρ) (res : ReadResult ρ)
        (stOut : SourceState) (r : ρ),
      sourceRead cfg st' ctx' = (res, stOut) → res = .produced r →
      stOut.created = st'.created + 1) := by
  have hblock : (sourceRead cfg st ctx).1 = .blockedUntilDone := by
    simp [sourceRead, hctx, hcreated, hN.le]
  refine ⟨hblock, ?_, ?_⟩
  · intro r hcon
    rw [hblock] at hcon
    exact ReadResult.noConfusion hcon
  · intro st' ctx' res stOut r hcall hres
    subst hres
    simp only [sourceRead] at hcall
    split at hcall
    · exact absurd hcall (by simp)
    · split at hcall
      · exact absurd hcall (by simp)
      · split at hcall
        · split at hcall
          · exact absurd hcall (by simp)
          · have hst := sourceReadRest_produced cfg _ _ ctx' r hcall
            rw [hst]
        · have hst := sourceReadRest_produced cfg _ _ ctx' r hcall
          rw [hst]

/-- **C2 witness**: instantiated at the ceiling-2 configuration with
`created = 2` and an uncancelled context. -/
theorem read_blocks_after_ceiling_witness :
    (sourceRead wReadCfg wReadState wReadCtx).1 = .blockedUntilDone ∧
    (∀ r : Nat, (sourceRead wReadCfg wReadState wReadCtx).1 ≠ .produced r) ∧
    (∀ (st' : SourceState) (ctx' : ReadCtx Nat) (res : ReadResult Nat)
        (stOut : SourceState) (r : Nat),
      sourceRead wReadCfg st' ctx' = (res, stOut) → res = .produced r →
      stOut.created = st'.created + 1) :=
  read_blocks_after_ceiling wReadCfg wReadState wReadCtx (by decide)
    (by decide) rfl

/-! ### C4 — burst scheduler catch-up -/

/-- The catch-up loop lands strictly past `now`, overshoots by at most one
increment, and advances by a whole positive number of increments. -/
theorem catchUp_char (SG now : Int) (hSG : 0 < SG) :
    ∀ we, we ≤ now →
      now < catchUp SG now we hSG ∧ catchUp SG now we hSG - SG ≤ now ∧
      ∃ k : Nat, 1 ≤ k ∧ catchUp SG now we hSG = we + (k : Int) * SG := by
  have main : ∀ m : Nat, ∀ we, we ≤ now → (now - we).toNat = m →
      now < catchUp SG now we hSG ∧ catchUp SG now we hSG - SG ≤ now ∧
      ∃ k : Nat, 1 ≤ k ∧ catchUp SG now we hSG = we + (k : Int) * SG := by
    intro m
    induction m using Nat.strong_induction_on with
    | _ m ih =>
      intro we hwe hm
      rw [catchUp]
      rw [if_neg (by omega)]
      by_cases h2 : now < we + SG
      · rw [catchUp, if_pos h2]
        refine ⟨h2, by omega, 1, le_refl 1, by push_cast; ring⟩
      · have hlt : (now - (we + SG)).toNat < m := by omega
        obtain ⟨ha, hb, k, hk, hkeq⟩ := ih _ hlt (we + SG) (by omega) rfl
        refine ⟨ha, hb, k + 1, by omega, ?_⟩
        push_cast at hkeq ⊢
        linarith
  intro we hwe
  exact main (now - we).toNat we hwe rfl

/-- **C4**: for `S, G > 0`, a pull arriving at `now ≥ windowEnd` makes the
burst scheduler advance `windowEnd` by whole increments of `S + G` to the
first value strictly past `now` (overshooting by at most one increment), and
sleep exactly until `wakeAt = windowEnd' - G` — not at all when `wakeAt` is
already past; the sleep is always at most `S`, and it is `0` (never the full
`S`) whenever the catch-up places `now` inside the generating window. -/
theorem burstWait_catchup (S G now windowEnd : Int) (hS : 0 < S) (hG : 0 < G)
    (hnow : windowEnd ≤ now) (we' sleep : Int)
    (hcall : burstWait S G now windowEnd (by omega) = (we', sleep)) :
    (∃ k : Nat, 1 ≤ k ∧ we' = windowEnd + (k : Int) * (S + G)) ∧
    now < we' ∧ we' - (S + G) ≤ now ∧
    sleep = (if now < we' - G then we' - G - now else 0) ∧
    (we' - G ≤ now → sleep = 0) ∧ 0 ≤ sleep ∧ sleep ≤ S := by
  obtain ⟨h1, h2, k, hk, hkeq⟩ :=
    catchUp_char (S + G) now (by omega) windowEnd hnow
  simp only [burstWait] at hcall
  rw [if_neg (by omega)] at hcall
  injection hcall with hwe hsleep
  subst hwe
  refine ⟨⟨k, hk, hkeq⟩, h1, h2, hsleep.symm, ?_, ?_, ?_⟩
  · intro hw
    rw [← hsleep, if_neg (by omega)]
  · rw [← hsleep]
    split <;> omega
  · rw [← hsleep]
    split <;> omega

/-- **C4 witness**: `S = 2`, `G = 3`, `now = 10`, `windowEnd = 10`: the
window is caught up to `15` and the pull sleeps `2` until `wakeAt = 12`. -/
theorem burstWait_catchup_witness :
    (∃ k : Nat, 1 ≤ k ∧ (15 : Int) = 10 + (k : Int) * (2 + 3)) ∧
    (10 : Int) < 15 ∧ (15 : Int) - (2 + 3) ≤ 10 ∧
    (2 : Int) = (if (10 : Int) < 15 - 3 then 15 - 3 - 10 else 0) ∧
    ((15 : Int) - 3 ≤ 10 → (2 : Int) = 0) ∧ (0 : Int) ≤ 2 ∧ (2 : Int) ≤ 2 :=
  burstWait_catchup 2 3 10 10 (by norm_num) (by norm_num) (by norm_num) 15 2
    (by
      have e1 : catchUp (5 : Int) 10 10 (by norm_num) = 15 := by
        rw [catchUp]
        norm_num
        rw [catchUp]
        norm_num
      simp [burstWait, e1])

/-! ### C5 — pull orchestrator step order -/

/-- **C5**: on every successful pull the orchestrator performs exactly the
steps ceiling-check, record synthesis, burst-scheduler wait, rate-limiter
wait, produced-count increment — in that order (in particular synthesis
precedes all waiting) — and the record returned is the one the collection
combinator synthesized, with the produced-count incremented by one. -/
theorem pull_step_order (st : PullState) (ctx : PullCtx)
    (steps : List PullStep) (r : Record) (st' : PullState)
    (hcall : pull st ctx = (steps, .produced r, st')) :
    steps = [.checkCeiling, .synthesizeRecord, .burstSchedulerWait,
      .rateLimiterWait, .incrementCount] ∧
    st'.produced = st.produced + 1 ∧
    ∃ gen', st.generator.next ctx.entropy = .ok (r, gen') ∧
      st'.generator = gen' := by
  simp only [pull] at hcall
  split at hcall
  · exact absurd hcall (by simp)
  · split at hcall
    · exact absurd hcall (by simp)
    · split at hcall
      · exact absurd hcall (by simp)
      · rename_i r0 gen' hnext
        split at hcall
        · exact absurd hcall (by simp)
        · split at hcall
          · exact absurd hcall (by simp)
          · injection hcall with h1 h23
            injection h23 with h2 h3
            injection h2 with hr
            subst hr
            refine ⟨h1.symm, ?_, gen', hnext, ?_⟩
            · rw [← h3]
            · rw [← h3]

/-- **C5 witness**: one successful pull on the concrete state `wPullState`. -/
theorem pull_step_order_witness :
    ([PullStep.checkCeiling, .synthesizeRecord, .burstSchedulerWait,
        .rateLimiterWait, .incrementCount] : List PullStep) =
      [.checkCeiling, .synthesizeRecord, .burstSchedulerWait,
        .rateLimiterWait, .incrementCount] ∧
    wPullStateAfter.produced = wPullState.produced + 1 ∧
    ∃ gen', wPullState.generator.next wPullCtx.entropy = .ok (wRecord, gen') ∧
      wPullStateAfter.generator = gen' :=
  pull_step_order wPullState wPullCtx _ wRecord wPullStateAfter (by rfl)

/-! ### C6 — panic exactly on unrecognized type tags -/

/-- A recognized tag always synthesizes a value. -/
theorem synthesizeField_known (rng : Rng) (now : Int) (i : Nat)
    (field typ : String) (h : typ ∈ KnownTypes) :
    ∃ v, synthesizeField rng now i field typ = .ok v := by
  simp only [KnownTypes, List.mem_cons, List.not_mem_nil, or_false] at h
  rcases h with rfl | rfl | rfl | rfl | rfl <;>
    simp [synthesizeField]

/-- An unrecognized tag always panics. -/
theorem synthesizeField_unknown (rng : Rng) (now : Int) (i : Nat)
    (field typ : String) (h : typ ∉ KnownTypes) :
    ∃ msg, synthesizeField rng now i field typ = .error msg := by
  simp only [KnownTypes, List.mem_cons, List.not_mem_nil, or_false, not_or] at h
  obtain ⟨h1, h2, h3, h4, h5⟩ := h
  simp [synthesizeField, h1, h2, h3, h4, h5]

/-- With only recognized tags, `randomStructuredData`'s loop succeeds. -/
theorem randomStructuredDataGo_ok (rng : Rng) (now : Int) (i : Nat)
    (fields : List (String × String)) (h : ∀ p ∈ fields, p.2 ∈ KnownTypes) :
    ∃ d, randomStructuredDataGo rng now i fields = .ok d := by
  induction fields generalizing i with
  | nil => exact ⟨[], rfl⟩
  | cons p rest ih =>
    obtain ⟨f, t⟩ := p
    obtain ⟨v, hv⟩ := synthesizeField_known rng now i f t (h (f, t) (by simp))
    obtain ⟨d, hd⟩ := ih (i + 1) (fun q hq => h q (List.mem_cons_of_mem _ hq))
    exact ⟨(f, v) :: d, by simp [randomStructuredDataGo, hv, hd]⟩

/-- With at least one unrecognized tag, the loop panics. -/
theorem randomStructuredDataGo_panic (rng : Rng) (now : Int) (i : Nat)
    (fields : List (String × String)) (h : ∃ p ∈ fields, p.2 ∉ KnownTypes) :
    ∃ msg, randomStructuredDataGo rng now i fields = .error msg := by
  induction fields generalizing i with
  | nil => simp at h
  | cons q rest ih =>
    obtain ⟨f, t⟩ := q
    by_cases ht : t ∈ KnownTypes
    · obtain ⟨v, hv⟩ := synthesizeField_known rng now i f t ht
      have hrest : ∃ p ∈ rest, p.2 ∉ KnownTypes := by
        rcases h with ⟨p, hp, hpk⟩
        rcases List.mem_cons.mp hp with rfl | hp'
        · exact absurd ht hpk
        · exact ⟨p, hp', hpk⟩
      obtain ⟨msg, hmsg⟩ := ih (i + 1) hrest
      exact ⟨msg, by simp [randomStructuredDataGo, hv, hmsg]⟩
    · obtain ⟨msg, hmsg⟩ := synthesizeField_unknown rng now i f t ht
      exact ⟨msg, by simp [randomStructuredDataGo, hmsg]⟩

/-- **C6**: for every field spec whose tags are all recognized
(`int`, `string`, `time`, `bool`, `duration`), the field value synthesizer
never panics — it returns data under any entropy; and for every field spec
containing at least one unrecognized tag, it panics (fails loudly) rather
than returning a value. -/
theorem randomStructuredData_panic_iff (rng : Rng) (now : Int)
    (fields : List (String × String)) :
    ((∀ p ∈ fields, p.2 ∈ KnownTypes) →
      ∃ d, randomStructuredData rng now fields = .ok d) ∧
    ((∃ p ∈ fields, p.2 ∉ KnownTypes) →
      ∃ msg, randomStructuredData rng now fields = .error msg) :=
  ⟨fun h => randomStructuredDataGo_ok rng now 0 fields h,
    fun h => randomStructuredDataGo_panic rng now 0 fields h⟩

/-- **C6 witness**: the all-recognized spec `wFieldsGood` synthesizes, and
the spec `wFieldsBad` (tag `float`) panics. -/
theorem randomStructuredData_panic_iff_witness :
    (∃ d, randomStructuredData (fun _ => 0) 0 wFieldsGood = .ok d) ∧
    (∃ msg, randomStructuredData (fun _ => 0) 0 wFieldsBad = .error msg) :=
  ⟨(randomStructuredData_panic_iff (fun _ => 0) 0 wFieldsGood).1 (by decide),
    (randomStructuredData_panic_iff (fun _ => 0) 0 wFieldsBad).2 (by decide)⟩

/-! ### C7 — file payload cached at construction -/

/-- **C7**: constructing a file-backed generator performs exactly one
filesystem read; a failed read fails the construction; on success the stored
data closure returns the identical cached buffer on every call under any
entropy, and `Next` never changes the stored closure (so subsequent pulls can
never re-read the file). -/
theorem fileRecordGenerator_cached (collection : String)
    (ops : List Operation) (path : String) (fs : FS) :
    (NewFileRecordGenerator collection ops path fs).2.reads = fs.reads + 1 ∧
    (∀ err, fs.content path = .error err →
      (NewFileRecordGenerator collection ops path fs).1 =
        .error ("failed to read file: " ++ err)) ∧
    (∀ bytes, fs.content path = .ok bytes →
      ∃ g, (NewFileRecordGenerator collection ops path fs).1 = .ok g ∧
        (∀ rng now, g.generateData rng now = .ok (.raw bytes)) ∧
        (∀ e r g', baseNext g e = .ok (r, g') →
          g'.generateData = g.generateData)) := by
  refine ⟨?_, ?_, ?_⟩
  · simp only [NewFileRecordGenerator, FS.readFile]
    split <;> rfl
  · intro err herr
    simp [NewFileRecordGenerator, FS.readFile, herr]
  · intro bytes hb
    have hg : (NewFileRecordGenerator collection ops path fs).1 = .ok
        { collection := collection
          operations := ops
          generateData := fun _ _ => .ok (.raw bytes)
          postProcess := none
          count := 0 } := by
      simp [NewFileRecordGenerator, FS.readFile, hb]
    refine ⟨_, hg, fun rng now => rfl, ?_⟩
    intro e r g' hnext
    obtain ⟨hg', -⟩ := baseNext_ok _ e r g' hnext
    rw [hg']

/-- **C7 witness**: one construction over the concrete filesystem `wFS`. -/
theorem fileRecordGenerator_cached_witness :
    (NewFileRecordGenerator ("") [.create] ("payload.txt") wFS).2.reads =
      wFS.reads + 1 ∧
    ∃ g, (NewFileRecordGenerator ("") [.create] ("payload.txt") wFS).1 = .ok g ∧
      (∀ rng now, g.generateData rng now = .ok (.raw [10, 20])) ∧
      (∀ e r g', baseNext g e = .ok (r, g') →
        g'.generateData = g.generateData) :=
  ⟨(fileRecordGenerator_cached ("") [.create] ("payload.txt") wFS).1,
    (fileRecordGenerator_cached ("") [.create] ("payload.txt") wFS).2.2
      [10, 20] (by rfl)⟩

/-! ### C8 — effective rate limit -/

/-- **C8**: the effective rate limit equals `1/D` records per second (with
`D` the deprecated fixed per-record delay, expressed in seconds as
`D / 10^9` of its nanosecond count) when no explicit rate is set and
`D > 0`; it equals the explicit rate `R` whenever one is set; and with
neither set it is `0`, meaning unbounded. -/
theorem rateLimit_formula (c : RateConfig) :
    (∀ D : Int, c.rate = 0 → c.readTime = D → 0 < D →
      RateLimit c = 1 / ((D : ℚ) / (nsPerSecond : ℚ))) ∧
    (c.rate ≠ 0 → RateLimit c = c.rate) ∧
    (c.rate = 0 → c.readTime = 0 → RateLimit c = 0) := by
  refine ⟨?_, ?_, ?_⟩
  · intro D h0 hD hDpos
    subst hD
    rw [RateLimit, if_pos ⟨h0, hDpos⟩, rateEvery, if_pos hDpos, one_div_div]
  · intro h
    rw [RateLimit, if_neg (fun hc => h hc.1)]
  · intro h0 hrt
    rw [RateLimit, if_neg (by rw [hrt]; exact fun hc => lt_irrefl 0 hc.2)]
    exact h0

/-- **C8 witness**: a 2-second deprecated delay yields half a record per
second. -/
theorem rateLimit_formula_witness :
    RateLimit wRateCfg = 1 / ((2000000000 : ℚ) / (nsPerSecond : ℚ)) :=
  (rateLimit_formula wRateCfg).1 2000000000 rfl rfl (by norm_num)

/-! ### C9 — combining a single generator delegates -/

/-- **C9**: combining exactly one generator yields that generator itself
(`Combine` returns it unchanged), so its record stream over any entropy
sequence is identical to the underlying generator's own stream — the same
records, with no position rewriting. -/
theorem combine_single_delegates (g : BaseRecordGenerator)
    (ces : List CEntropy) :
    Combine [g] = .single g ∧
    runCombined (Combine [g]) ces = runBase g (ces.map CEntropy.inner) := by
  refine ⟨rfl, ?_⟩
  have aux : ∀ (ces : List CEntropy) (g : BaseRecordGenerator),
      runCombined (.single g) ces = runBase g (ces.map CEntropy.inner) := by
    intro ces
    induction ces with
    | nil => intro g; rfl
    | cons e es ih =>
      intro g
      simp only [runCombined, runBase, List.map_cons, CombinedGen.next]
      cases hb : baseNext g e.inner with
      | error s => rfl
      | ok p =>
        obtain ⟨r, g'⟩ := p
        simp only []
        rw [ih g']
  exact aux ces g

/-! ### C10 — duration values are whole seconds in [0s, 1000s) -/

/-- Positional form: if field `k` of the spec is tagged `duration`, entry `k`
of the synthesized data is that field with a value of `s` whole seconds for
some `s < 1000`. -/
theorem randomStructuredDataGo_duration (rng : Rng) (now : Int) (i k : Nat)
    (fields : List (String × String)) (d : StructuredData) (f : String)
    (hok : randomStructuredDataGo rng now i fields = .ok d)
    (hf : fields.get? k = some (f, "duration")) :
    ∃ s : Nat, s < 1000 ∧
      d.get? k = some (f, .durationV ((s : Int) * nsPerSecond)) := by
  induction fields generalizing i k d with
  | nil => simp at hf
  | cons q rest ih =>
    obtain ⟨fq, tq⟩ := q
    simp only [randomStructuredDataGo] at hok
    split at hok
    · exact absurd hok (by simp)
    · rename_i v hv
      split at hok
      · exact absurd hok (by simp)
      · rename_i rest' hrest
        injection hok with hok
        subst hok
        cases k with
        | zero =>
          simp only [List.get?] at hf
          injection hf with hf
          rw [Prod.mk.injEq] at hf
          obtain ⟨rfl, rfl⟩ := hf
          simp [synthesizeField] at hv
          exact ⟨rng i % 1000, Nat.mod_lt _ (by norm_num), by
            simp [List.get?, ← hv]⟩
        | succ k' =>
          simp only [List.get?] at hf
          obtain ⟨s, hs, hd⟩ := ih (i + 1) k' rest' hrest hf
          exact ⟨s, hs, by simpa [List.get?] using hd⟩

/-- **C10**: every value synthesized for a field with the `duration` type tag
is a whole multiple of one second, at least `0` and strictly less than
`1000` seconds (`1000 * 10^9` ns). -/
theorem duration_field_bounds (rng : Rng) (now : Int)
    (fields : List (String × String)) (d : StructuredData) (k : Nat)
    (f : String) (hok : randomStructuredData rng now fields = .ok d)
    (hf : fields.get? k = some (f, "duration")) :
    ∃ ns : Int, d.get? k = some (f, .durationV ns) ∧
      nsPerSecond ∣ ns ∧ 0 ≤ ns ∧ ns < 1000 * nsPerSecond := by
  obtain ⟨s, hs, hd⟩ :=
    randomStructuredDataGo_duration rng now 0 k fields d f hok hf
  have hns : (0 : Int) < nsPerSecond := by norm_num [nsPerSecond]
  refine ⟨(s : Int) * nsPerSecond, hd, ⟨(s : Int), mul_comm _ _⟩, ?_, ?_⟩
  · positivity
  · exact mul_lt_mul_of_pos_right (by exact_mod_cast hs) hns

/-- **C10 witness**: the spec `wFieldsGood` has field 1 tagged `duration`;
under the zero entropy stream its synthesized value is `0` seconds. -/
theorem duration_field_bounds_witness :
    ∃ ns : Int,
      ([("id", FieldValue.intV 0), ("d", FieldValue.durationV 0)] :
        StructuredData).get? 1 = some ("d", .durationV ns) ∧
      nsPerSecond ∣ ns ∧ 0 ≤ ns ∧ ns < 1000 * nsPerSecond :=
  duration_field_bounds (fun _ => 0) 0 wFieldsGood _ 1 ("d") (by rfl) rfl

end ConduitGen
